import Mathlib

/-!
STM32H7 I2C timing computation and RP2040 SPI adapter.

A shallow embedding of

* `targets/TARGET_STM/TARGET_STM32H7/i2c_device.c` (`I2C_ComputeTiming`), and
* `targets/TARGET_RASPBERRYPI/TARGET_RP2040/spi_api.c`
  (`spi_format`, `spi_master_write`, `spi_master_block_write`).

`uint32_t` values are natural numbers below `2 ^ 32`; the only operation of
`I2C_ComputeTiming` that can leave that range is the unsigned `x - 1`, which is
modelled with an explicit reduction modulo `2 ^ 32`.  A division whose divisor
is zero is an explicit fault of the model.
-/

namespace I2CDevice

/-- The macro `NSEC_PER_SEC`. -/
def NSEC_PER_SEC : Nat := 1000000000

/-- Number of values of a `uint32_t`. -/
def UINT32_SIZE : Nat := 4294967296

/-- The `uint32_t` expression `x - 1`: it wraps around to `2 ^ 32 - 1` at `x = 0`. -/
def subOne (x : Nat) : Nat := (x + (UINT32_SIZE - 1)) % UINT32_SIZE

/-- The `uint32_t` expression `x + 1` of `++presc`. -/
def addOne (x : Nat) : Nat := (x + 1) % UINT32_SIZE

/-- The four locals assigned by the `switch` of `I2C_ComputeTiming`, in nanoseconds. -/
structure MinTimes where
  i2c_h_min_time : Nat
  i2c_l_min_time : Nat
  i2c_hold_time_min : Nat
  i2c_setup_time_min : Nat
  deriving DecidableEq, Repr

/-- The `switch (i2c_freq)` of `I2C_ComputeTiming`.  It has no `default` label: for any
other frequency the four locals keep the indeterminate values `uninit` they were
declared with. -/
def selectMinTimes (uninit : MinTimes) (i2c_freq : Nat) : MinTimes :=
  if i2c_freq = 100000 then
    { i2c_h_min_time := 4000, i2c_l_min_time := 4700,
      i2c_hold_time_min := 500, i2c_setup_time_min := 1250 }
  else if i2c_freq = 400000 then
    { i2c_h_min_time := 600, i2c_l_min_time := 1300,
      i2c_hold_time_min := 375, i2c_setup_time_min := 500 }
  else if i2c_freq = 1000000 then
    { i2c_h_min_time := 400, i2c_l_min_time := 470,
      i2c_hold_time_min := 50, i2c_setup_time_min := 125 }
  else uninit

/-- The five arguments handed to `__LL_I2C_CONVERT_TIMINGS`, in the macro's order. -/
structure TimingArgs where
  prescaler : Nat
  setupTime : Nat
  holdTime : Nat
  sclhPeriod : Nat
  scllPeriod : Nat
  deriving DecidableEq, Repr

/-- What one execution of the body of the `do ... while` loop does. -/
inductive Step where
  /-- a division with a zero divisor was executed -/
  | divByZero : Step
  /-- one of the two `continue` statements was reached, `presc` now has the given value -/
  | next (presc : Nat) : Step
  /-- the macro was evaluated on these arguments and `break` was reached -/
  | found (args : TimingArgs) : Step
  deriving DecidableEq, Repr

/-- The body of the `do ... while` loop of `I2C_ComputeTiming` (lines 61 to 80). -/
def loopBody (m : MinTimes) (clock_src_freq presc : Nat) : Step :=
  if presc = 0 then .divByZero else
  let t_presc := clock_src_freq / presc
  if t_presc = 0 then .divByZero else
  let ns_presc := NSEC_PER_SEC / t_presc
  if ns_presc = 0 then .divByZero else
  let sclh := m.i2c_h_min_time / ns_presc
  let scll := m.i2c_l_min_time / ns_presc
  let sdadel := m.i2c_hold_time_min / ns_presc
  let scldel := m.i2c_setup_time_min / ns_presc
  if subOne sclh > 255 ∨ subOne scll > 255 then .next (addOne presc)
  else if sdadel > 15 ∨ subOne scldel > 15 then .next (addOne presc)
  else .found
    { prescaler := subOne presc, setupTime := subOne scldel, holdTime := sdadel,
      sclhPeriod := subOne sclh, scllPeriod := subOne scll }

/-- How the `do ... while` loop ends. -/
inductive LoopExit where
  /-- a division with a zero divisor was executed -/
  | divByZero : LoopExit
  /-- `break` was reached after the macro was evaluated on these arguments -/
  | found (args : TimingArgs) : LoopExit
  /-- the loop condition `presc < 16` was false, `timing` is still `0` -/
  | exhausted : LoopExit
  /-- the iteration bound of the model was used up -/
  | outOfFuel : LoopExit
  deriving DecidableEq, Repr

/-- The `do ... while (presc < 16)` loop, started with the given value of `presc` and
bounded to `fuel` executions of the body. -/
def doWhile (m : MinTimes) (clock_src_freq : Nat) : Nat → Nat → LoopExit
  | 0, _ => .outOfFuel
  | fuel + 1, presc =>
    match loopBody m clock_src_freq presc with
    | .divByZero => .divByZero
    | .found args => .found args
    | .next presc1 =>
      if presc1 < 16 then doWhile m clock_src_freq fuel presc1 else .exhausted

/-- The loop of `I2C_ComputeTiming` as the function runs it: `presc` starts at `1`.
Fifteen executions of the body are enough (see `doWhile_spec`). -/
def searchTiming (uninit : MinTimes) (clock_src_freq i2c_freq : Nat) : LoopExit :=
  doWhile (selectMinTimes uninit i2c_freq) clock_src_freq 15 1

/-- Result of a call of `I2C_ComputeTiming`. -/
inductive Outcome where
  /-- the function returned this `uint32_t` -/
  | returned (timing : Nat) : Outcome
  /-- a division with a zero divisor was executed -/
  | divByZero : Outcome
  /-- the iteration bound of the model was used up -/
  | outOfFuel : Outcome
  deriving DecidableEq, Repr

/-- The function `I2C_ComputeTiming`.  The macro `__LL_I2C_CONVERT_TIMINGS` comes from
`stm32h7xx_ll_i2c.h` and is the parameter `convert`; `uninit` holds the indeterminate
initial values of the four locals set by the `switch`. -/
def I2C_ComputeTiming (convert : Nat → Nat → Nat → Nat → Nat → Nat) (uninit : MinTimes)
    (clock_src_freq i2c_freq : Nat) : Outcome :=
  match searchTiming uninit clock_src_freq i2c_freq with
  | .divByZero => .divByZero
  | .outOfFuel => .outOfFuel
  | .exhausted => .returned 0
  | .found a => .returned (convert a.prescaler a.setupTime a.holdTime a.sclhPeriod a.scllPeriod)

/-- Modelled from the spec: the packing macro `__LL_I2C_CONVERT_TIMINGS` of
`stm32h7xx_ll_i2c.h`, which is not among the sources.  It packs the five fields into one
32-bit register word, each shifted to its offset and masked to its width: prescaler in
bits 31..28, setup delay in bits 23..20, hold delay in bits 19..16, high period in bits
15..8 and low period in bits 7..0. -/
def LL_I2C_CONVERT_TIMINGS (prescaler setupTime holdTime sclhPeriod scllPeriod : Nat) : Nat :=
  (((prescaler <<< 28) % UINT32_SIZE) &&& 0xF0000000) |||
  (((setupTime <<< 20) % UINT32_SIZE) &&& 0x00F00000) |||
  (((holdTime <<< 16) % UINT32_SIZE) &&& 0x000F0000) |||
  (((sclhPeriod <<< 8) % UINT32_SIZE) &&& 0x0000FF00) |||
  (((scllPeriod <<< 0) % UINT32_SIZE) &&& 0x000000FF)

/-- The three bus frequencies that have a `case` label in the `switch`. -/
def Recognised (i2c_freq : Nat) : Prop :=
  i2c_freq = 100000 ∨ i2c_freq = 400000 ∨ i2c_freq = 1000000

instance (i2c_freq : Nat) : Decidable (Recognised i2c_freq) := by
  unfold Recognised; infer_instance

/-! ### The search as the specification words it -/

/-- Specification: `nsPerTick = 1_000_000_000 / (sourceClockHz / prescaler)`. -/
def nsPerTick (clock p : Nat) : Nat := 1000000000 / (clock / p)

/-- Specification: the raw count `sclHigh = minHighTime / nsPerTick`. -/
def sclHigh (m : MinTimes) (clock p : Nat) : Nat := m.i2c_h_min_time / nsPerTick clock p

/-- Specification: the raw count `sclLow = minLowTime / nsPerTick`. -/
def sclLow (m : MinTimes) (clock p : Nat) : Nat := m.i2c_l_min_time / nsPerTick clock p

/-- Specification: the raw count `dataHold = minDataHoldTime / nsPerTick`. -/
def dataHold (m : MinTimes) (clock p : Nat) : Nat := m.i2c_hold_time_min / nsPerTick clock p

/-- Specification: the raw count `dataSetup = minDataSetupTime / nsPerTick`. -/
def dataSetup (m : MinTimes) (clock p : Nat) : Nat := m.i2c_setup_time_min / nsPerTick clock p

/-- Specification: the constraint check at prescaler `p`, with the underflow of the three
decremented counts written as an explicit lower bound. -/
def Passes (m : MinTimes) (clock p : Nat) : Prop :=
  (1 ≤ sclHigh m clock p ∧ sclHigh m clock p ≤ 256) ∧
  (1 ≤ sclLow m clock p ∧ sclLow m clock p ≤ 256) ∧
  dataHold m clock p ≤ 15 ∧
  (1 ≤ dataSetup m clock p ∧ dataSetup m clock p ≤ 16)

instance (m : MinTimes) (clock p : Nat) : Decidable (Passes m clock p) := by
  unfold Passes; infer_instance

/-- Specification: the fields of the result built at prescaler `p`; `dataHold` is not
decremented. -/
def specFields (m : MinTimes) (clock p : Nat) : TimingArgs :=
  { prescaler := p - 1, setupTime := dataSetup m clock p - 1, holdTime := dataHold m clock p,
    sclhPeriod := sclHigh m clock p - 1, scllPeriod := sclLow m clock p - 1 }

/-- The constraint check exactly as the two `if` statements of the loop body code it:
neither `continue` is taken. -/
def CodedCheck (m : MinTimes) (clock p : Nat) : Prop :=
  ¬ (subOne (sclHigh m clock p) > 255 ∨ subOne (sclLow m clock p) > 255) ∧
  ¬ (dataHold m clock p > 15 ∨ subOne (dataSetup m clock p) > 15)

instance (m : MinTimes) (clock p : Nat) : Decidable (CodedCheck m clock p) := by
  unfold CodedCheck; infer_instance


/-- The arguments of the macro as the loop body computes them at prescaler `p`. -/
def codedFields (m : MinTimes) (clock p : Nat) : TimingArgs :=
  { prescaler := subOne p, setupTime := subOne (dataSetup m clock p),
    holdTime := dataHold m clock p, sclhPeriod := subOne (sclHigh m clock p),
    scllPeriod := subOne (sclLow m clock p) }

/-- Every field of the profile is a `uint32_t`, and the setup time is the smallest of the
three minimum times whose count is decremented. -/
structure MinTimes.Sane (m : MinTimes) : Prop where
  h_lt : m.i2c_h_min_time < 4294967296
  l_lt : m.i2c_l_min_time < 4294967296
  hold_lt : m.i2c_hold_time_min < 4294967296
  setup_lt : m.i2c_setup_time_min < 4294967296
  setup_le_h : m.i2c_setup_time_min ≤ m.i2c_h_min_time
  two_setup_le_l : 2 * m.i2c_setup_time_min ≤ m.i2c_l_min_time

/-- The documented ranges of the five register fields: prescaler index 0..15, high and
low period 0..255, hold and setup delay 0..15. -/
def InDocumentedRanges (a : TimingArgs) : Prop :=
  a.prescaler ≤ 15 ∧ a.sclhPeriod ≤ 255 ∧ a.scllPeriod ≤ 255 ∧ a.holdTime ≤ 15 ∧
    a.setupTime ≤ 15

instance (a : TimingArgs) : Decidable (InDocumentedRanges a) := by
  unfold InDocumentedRanges; infer_instance

/-- The call `I2C_ComputeTiming(clock, i2c_freq)` finds a timing, returns its packed word
and all five fields are within their documented ranges. -/
def ReturnsTimingInRange (convert : Nat → Nat → Nat → Nat → Nat → Nat) (uninit : MinTimes)
    (clock i2c_freq : Nat) : Prop :=
  ∃ a, searchTiming uninit clock i2c_freq = .found a ∧
    I2C_ComputeTiming convert uninit clock i2c_freq =
      .returned (convert a.prescaler a.setupTime a.holdTime a.sclhPeriod a.scllPeriod) ∧
    InDocumentedRanges a

end I2CDevice

namespace SpiApi

/-- Clock polarity of the pico-sdk (`spi_cpol_t`). -/
inductive spi_cpol_t where
  | SPI_CPOL_0 : spi_cpol_t
  | SPI_CPOL_1 : spi_cpol_t
  deriving DecidableEq, Repr

/-- Clock phase of the pico-sdk (`spi_cpha_t`). -/
inductive spi_cpha_t where
  | SPI_CPHA_0 : spi_cpha_t
  | SPI_CPHA_1 : spi_cpha_t
  deriving DecidableEq, Repr

/-- Bit order of the pico-sdk (`spi_order_t`). -/
inductive spi_order_t where
  | SPI_LSB_FIRST : spi_order_t
  | SPI_MSB_FIRST : spi_order_t
  deriving DecidableEq, Repr

/-- Numeric value of the enumerator: `SPI_CPOL_0 = 0`, `SPI_CPOL_1 = 1`. -/
def spi_cpol_t.val : spi_cpol_t → Int
  | .SPI_CPOL_0 => 0
  | .SPI_CPOL_1 => 1

/-- Numeric value of the enumerator: `SPI_CPHA_0 = 0`, `SPI_CPHA_1 = 1`. -/
def spi_cpha_t.val : spi_cpha_t → Int
  | .SPI_CPHA_0 => 0
  | .SPI_CPHA_1 => 1

/-- The object `spi_t`: it holds the SPI hardware instance `dev` saved by `spi_init`. -/
structure spi_t where
  dev : Nat
  deriving DecidableEq, Repr

/-- A call of a pico-sdk routine, with the arguments it receives. -/
inductive SdkCall where
  | spi_set_format (dev : Nat) (data_bits : Nat) (cpol : spi_cpol_t) (cpha : spi_cpha_t)
      (order : spi_order_t) : SdkCall
  | spi_set_slave (dev : Nat) (slave : Bool) : SdkCall
  | spi_write_read_blocking (dev : Nat) (src : List Nat) (len : Nat) : SdkCall
  deriving DecidableEq, Repr

/-- A failed `MBED_ASSERT`, named by the source line of the assertion. -/
inductive AssertFailure where
  | line (n : Nat) : AssertFailure
  deriving DecidableEq, Repr

/-- Conversion of an `int` to the `uint` / `size_t` of the RP2040, both 32 bits wide:
reduction modulo `2 ^ 32`. -/
def toUint32 (x : Int) : Nat := (x % 4294967296).toNat

/-- Conversion of an `int` to `uint8_t`. -/
def toUint8 (x : Int) : Nat := (x % 256).toNat

/-- The function `spi_format` with assertions enabled: the result is the failed assertion
or the pico-sdk calls made, in order. -/
def spi_format (obj : spi_t) (bits mode slave : Int) : Except AssertFailure (List SdkCall) :=
  if ¬ ((bits ≥ 4) ∧ (bits ≤ 16)) then .error (.line 49)
  else if ¬ ((mode ≥ 0) ∧ (mode ≤ 3)) then .error (.line 50)
  else
    let cp : spi_cpol_t × spi_cpha_t :=
      if mode = 0 then (.SPI_CPOL_0, .SPI_CPHA_0)
      else if mode = 1 then (.SPI_CPOL_0, .SPI_CPHA_1)
      else if mode = 2 then (.SPI_CPOL_1, .SPI_CPHA_0)
      else (.SPI_CPOL_1, .SPI_CPHA_1)
    .ok [.spi_set_format obj.dev (toUint32 bits) cp.1 cp.2 .SPI_MSB_FIRST,
         .spi_set_slave obj.dev (decide (slave ≠ 0))]

/-- What a completed `spi_master_block_write` leaves behind. -/
structure BlockWriteResult where
  /-- the value returned -/
  ret : Int
  /-- the contents of `rx_buffer` afterwards -/
  rx_buffer : List Nat
  /-- the pico-sdk calls made, in order -/
  calls : List SdkCall
  deriving DecidableEq, Repr

/-- The function `spi_master_block_write` with assertions enabled.  The pico-sdk routine
`spi_write_read_blocking` is the parameter `sdk`: from the device, the source buffer, the
destination buffer and the length it gives its return value and the new destination
buffer. -/
def spi_master_block_write (sdk : Nat → List Nat → List Nat → Nat → Int × List Nat)
    (obj : spi_t) (tx_buffer : List Nat) (tx_length : Int) (rx_buffer : List Nat)
    (rx_length : Int) (_write_fill : Nat) : Except AssertFailure BlockWriteResult :=
  if ¬ (tx_length = rx_length) then .error (.line 90)
  else
    let r := sdk obj.dev tx_buffer rx_buffer (toUint32 tx_length)
    .ok { ret := r.1, rx_buffer := r.2,
          calls := [.spi_write_read_blocking obj.dev tx_buffer (toUint32 tx_length)] }

/-- The function `spi_master_write`; `rx` is the indeterminate initial value of the local
`rx`, and the fill character is the blank (32). -/
def spi_master_write (sdk : Nat → List Nat → List Nat → Nat → Int × List Nat)
    (obj : spi_t) (value : Int) (rx : Nat) : Except AssertFailure (Int × List SdkCall) :=
  let tx := toUint8 value
  match spi_master_block_write sdk obj [tx] 1 [rx] 1 32 with
  | .error e => .error e
  | .ok r => .ok ((r.rx_buffer.headD rx : Nat), r.calls)

/-- Conversion of a `size_t` to `int`: the value modulo `2 ^ 32`, read as a signed 32-bit
number. -/
def toInt32 (x : Nat) : Int :=
  if x % 4294967296 < 2147483648 then ((x % 4294967296 : Nat) : Int)
  else ((x % 4294967296 : Nat) : Int) - 4294967296

/-- A stand-in for the pico-sdk routine used to evaluate the functions: it echoes the first
`len` source bytes into the destination and returns `(int)len`. -/
def echoSdk (_dev : Nat) (src dst : List Nat) (len : Nat) : Int × List Nat :=
  (toInt32 len, src.take len ++ dst.drop len)

end SpiApi

namespace I2CDevice

/-! ### Arithmetic of the wrapping decrement -/

theorem subOne_eq {x : Nat} (h1 : 1 ≤ x) (h2 : x < 4294967296) : subOne x = x - 1 := by
  unfold subOne UINT32_SIZE; omega

theorem subOne_le_255 {x : Nat} (h2 : x < 4294967296) :
    ¬ subOne x > 255 ↔ 1 ≤ x ∧ x ≤ 256 := by
  unfold subOne UINT32_SIZE; omega

theorem subOne_le_15 {x : Nat} (h2 : x < 4294967296) :
    ¬ subOne x > 15 ↔ 1 ≤ x ∧ x ≤ 16 := by
  unfold subOne UINT32_SIZE; omega

theorem addOne_eq {x : Nat} (h : x ≤ 15) : addOne x = x + 1 := by
  unfold addOne UINT32_SIZE; omega

/-! ### The three profiles -/

theorem selectMinTimes_sane (uninit : MinTimes) {i2c_freq : Nat} (hf : Recognised i2c_freq) :
    (selectMinTimes uninit i2c_freq).Sane := by
  rcases hf with h | h | h <;> subst h <;> constructor <;> simp [selectMinTimes]

/-! ### One execution of the loop body -/

theorem divisors_ne_zero {clock p : Nat} (h15 : 15 ≤ clock) (h9 : clock ≤ 1000000000)
    (hp1 : 1 ≤ p) (hp15 : p ≤ 15) :
    p ≠ 0 ∧ clock / p ≠ 0 ∧ NSEC_PER_SEC / (clock / p) ≠ 0 := by
  have hp : 0 < p := hp1
  have ht : 0 < clock / p := Nat.div_pos (by omega) hp
  have hle : clock / p ≤ 1000000000 := le_trans (Nat.div_le_self _ _) h9
  have hn : 0 < NSEC_PER_SEC / (clock / p) := Nat.div_pos hle ht
  exact ⟨by omega, by omega, by omega⟩

theorem loopBody_eq (m : MinTimes) {clock p : Nat} (h15 : 15 ≤ clock)
    (h9 : clock ≤ 1000000000) (hp1 : 1 ≤ p) (hp15 : p ≤ 15) :
    loopBody m clock p =
      if CodedCheck m clock p then .found (codedFields m clock p) else .next (addOne p) := by
  obtain ⟨h0, ht, hn⟩ := divisors_ne_zero h15 h9 hp1 hp15
  unfold loopBody
  simp only [h0, ht, hn, if_false]
  unfold CodedCheck codedFields sclHigh sclLow dataHold dataSetup nsPerTick
  simp only [NSEC_PER_SEC] at hn ⊢
  by_cases hA : subOne (m.i2c_h_min_time / (1000000000 / (clock / p))) > 255 ∨
      subOne (m.i2c_l_min_time / (1000000000 / (clock / p))) > 255
  · simp [hA]
  · by_cases hB : m.i2c_hold_time_min / (1000000000 / (clock / p)) > 15 ∨
        subOne (m.i2c_setup_time_min / (1000000000 / (clock / p))) > 15
    · simp [hA, hB]
    · simp [hA, hB]

theorem codedCheck_iff_passes {m : MinTimes} (hm : m.Sane) (clock p : Nat) :
    CodedCheck m clock p ↔ Passes m clock p := by
  have b1 : sclHigh m clock p < 4294967296 :=
    lt_of_le_of_lt (Nat.div_le_self _ _) hm.h_lt
  have b2 : sclLow m clock p < 4294967296 :=
    lt_of_le_of_lt (Nat.div_le_self _ _) hm.l_lt
  have b3 : dataSetup m clock p < 4294967296 :=
    lt_of_le_of_lt (Nat.div_le_self _ _) hm.setup_lt
  unfold CodedCheck Passes
  rw [not_or, not_or, subOne_le_255 b1, subOne_le_255 b2, subOne_le_15 b3]
  constructor
  · rintro ⟨⟨a, b⟩, c, d⟩; exact ⟨a, b, by omega, d⟩
  · rintro ⟨a, b, c, d⟩; exact ⟨⟨a, b⟩, by omega, d⟩

theorem codedFields_eq_specFields {m : MinTimes} {clock p : Nat}
    (hp1 : 1 ≤ p) (hp15 : p ≤ 15) (hpass : Passes m clock p) :
    codedFields m clock p = specFields m clock p := by
  obtain ⟨⟨a1, a2⟩, ⟨b1, b2⟩, _, c1, c2⟩ := hpass
  unfold codedFields specFields
  rw [subOne_eq hp1 (by omega), subOne_eq c1 (by omega), subOne_eq a1 (by omega),
    subOne_eq b1 (by omega)]

/-! ### The loop -/

/-- From prescaler `p` on, the loop stops at the first prescaler that passes the check and
hands the fields of that prescaler to the macro; if there is none up to `15` it ends with
the loop condition false.  It never divides by zero and never needs more than `16 - p`
executions of the body. -/
theorem doWhile_spec (m : MinTimes) {clock : Nat} (h15 : 15 ≤ clock)
    (h9 : clock ≤ 1000000000) :
    ∀ (fuel p : Nat), 1 ≤ p → p ≤ 15 → 16 ≤ p + fuel →
      (∃ q, p ≤ q ∧ q ≤ 15 ∧ CodedCheck m clock q ∧
          (∀ r, p ≤ r → r < q → ¬ CodedCheck m clock r) ∧
          doWhile m clock fuel p = .found (codedFields m clock q)) ∨
      ((∀ q, p ≤ q → q ≤ 15 → ¬ CodedCheck m clock q) ∧
          doWhile m clock fuel p = .exhausted) := by
  intro fuel
  induction fuel with
  | zero => intro p _ h2 h3; omega
  | succ n ih =>
    intro p hp1 hp15 hfuel
    by_cases hc : CodedCheck m clock p
    · left
      refine ⟨p, le_refl p, hp15, hc, fun r h1 h2 => by omega, ?_⟩
      simp [doWhile, loopBody_eq m h15 h9 hp1 hp15, hc]
    · have hstep : doWhile m clock (n + 1) p =
          if p + 1 < 16 then doWhile m clock n (p + 1) else .exhausted := by
        simp [doWhile, loopBody_eq m h15 h9 hp1 hp15, hc, addOne_eq hp15]
      by_cases hlast : p + 1 < 16
      · rw [hstep, if_pos hlast]
        rcases ih (p + 1) (by omega) (by omega) (by omega) with
          ⟨q, hq1, hq2, hq3, hq4, hq5⟩ | ⟨hnone, hex⟩
        · left
          refine ⟨q, by omega, hq2, hq3, ?_, hq5⟩
          intro r hr1 hr2
          by_cases hrp : r = p
          · subst hrp; exact hc
          · exact hq4 r (by omega) hr2
        · right
          refine ⟨?_, hex⟩
          intro q hq1 hq2
          by_cases hqp : q = p
          · subst hqp; exact hc
          · exact hnone q (by omega) hq2
      · right
        rw [hstep, if_neg hlast]
        refine ⟨?_, rfl⟩
        intro q hq1 hq2
        have : q = p := by omega
        subst this; exact hc

/-- The search of `I2C_ComputeTiming` in terms of the specification: for a recognised
frequency and a clock between 15 Hz and 1 GHz it ends at the first passing prescaler
or with the loop condition false. -/
theorem searchTiming_spec (uninit : MinTimes) {clock i2c_freq : Nat}
    (hf : Recognised i2c_freq) (h15 : 15 ≤ clock) (h9 : clock ≤ 1000000000) :
    (∃ q, 1 ≤ q ∧ q ≤ 15 ∧ Passes (selectMinTimes uninit i2c_freq) clock q ∧
        (∀ r, 1 ≤ r → r < q → ¬ Passes (selectMinTimes uninit i2c_freq) clock r) ∧
        searchTiming uninit clock i2c_freq =
          .found (specFields (selectMinTimes uninit i2c_freq) clock q)) ∨
    ((∀ q, 1 ≤ q → q ≤ 15 → ¬ Passes (selectMinTimes uninit i2c_freq) clock q) ∧
        searchTiming uninit clock i2c_freq = .exhausted) := by
  have hm := selectMinTimes_sane uninit hf
  unfold searchTiming
  rcases doWhile_spec (selectMinTimes uninit i2c_freq) h15 h9 15 1 (le_refl 1) (by omega)
      (by omega) with ⟨q, hq1, hq2, hq3, hq4, hq5⟩ | ⟨hnone, hex⟩
  · left
    have hpass := (codedCheck_iff_passes hm clock q).mp hq3
    refine ⟨q, hq1, hq2, hpass, ?_, ?_⟩
    · intro r hr1 hr2 hr3
      exact hq4 r hr1 hr2 ((codedCheck_iff_passes hm clock r).mpr hr3)
    · rw [hq5, codedFields_eq_specFields hq1 hq2 hpass]
  · right
    refine ⟨?_, hex⟩
    intro q hq1 hq2 hq3
    exact hnone q hq1 hq2 ((codedCheck_iff_passes hm clock q).mpr hq3)

/-! ### The packing macro -/

theorem and_mask_mod_256 (x k : Nat) (hk : k % 256 = 0) : (x &&& k) % 256 = 0 := by
  have h : (x &&& k) % 2 ^ 8 = 0 := by
    apply Nat.eq_of_testBit_eq
    intro i
    rw [Nat.testBit_mod_two_pow, Nat.testBit_and, Nat.zero_testBit]
    by_cases hi : i < 8
    · have hbit : k.testBit i = false := by
        have h2 : (k % 2 ^ 8).testBit i = false := by
          have h3 : k % 2 ^ 8 = 0 := hk
          rw [h3, Nat.zero_testBit]
        rw [Nat.testBit_mod_two_pow] at h2
        simpa [hi] using h2
      simp [hbit]
    · simp [hi]
  exact h

theorem or_mod_256 (a b : Nat) : (a ||| b) % 256 = (a % 256) ||| (b % 256) := by
  show (a ||| b) % 2 ^ 8 = (a % 2 ^ 8) ||| (b % 2 ^ 8)
  apply Nat.eq_of_testBit_eq
  intro i
  simp only [Nat.testBit_mod_two_pow, Nat.testBit_or]
  by_cases hi : i < 8 <;> simp [hi]

/-- The low byte of the packed word is the low byte of the last field (SCLL). -/
theorem LL_I2C_CONVERT_TIMINGS_low_byte (a b c d e : Nat) :
    LL_I2C_CONVERT_TIMINGS a b c d e % 256 = e % 256 := by
  unfold LL_I2C_CONVERT_TIMINGS
  rw [or_mod_256, or_mod_256, or_mod_256, or_mod_256,
    and_mask_mod_256 _ _ (by norm_num), and_mask_mod_256 _ _ (by norm_num),
    and_mask_mod_256 _ _ (by norm_num), and_mask_mod_256 _ _ (by norm_num)]
  have hlow : (e <<< 0 % UINT32_SIZE &&& 255) = e % 256 := by
    have h := Nat.and_pow_two_sub_one_eq_mod (e <<< 0 % UINT32_SIZE) 8
    simp only [UINT32_SIZE, Nat.shiftLeft_zero] at h ⊢
    norm_num at h
    exact h
  rw [hlow]
  simp

/-! ### Consequences of a passing check -/

theorem two_le_sclLow {m : MinTimes} (hm : m.Sane) {clock p : Nat}
    (hs : 1 ≤ dataSetup m clock p) : 2 ≤ sclLow m clock p := by
  unfold dataSetup at hs
  unfold sclLow
  have hn : 0 < nsPerTick clock p := by
    rcases Nat.eq_zero_or_pos (nsPerTick clock p) with h0 | h0
    · rw [h0, Nat.div_zero] at hs; omega
    · exact h0
  have hle : nsPerTick clock p ≤ m.i2c_setup_time_min := by
    have := (Nat.le_div_iff_mul_le hn).mp hs
    omega
  rw [Nat.le_div_iff_mul_le hn]
  have := hm.two_setup_le_l
  omega

theorem specFields_of_found {uninit : MinTimes} {clock i2c_freq : Nat} {a : TimingArgs}
    (hf : Recognised i2c_freq) (h15 : 15 ≤ clock) (h9 : clock ≤ 1000000000)
    (hfound : searchTiming uninit clock i2c_freq = .found a) :
    ∃ p, 1 ≤ p ∧ p ≤ 15 ∧ Passes (selectMinTimes uninit i2c_freq) clock p ∧
      (∀ q, 1 ≤ q → q < p → ¬ Passes (selectMinTimes uninit i2c_freq) clock q) ∧
      a = specFields (selectMinTimes uninit i2c_freq) clock p := by
  rcases searchTiming_spec uninit hf h15 h9 with ⟨q, hq1, hq2, hq3, hq4, hq5⟩ | ⟨_, hex⟩
  · rw [hq5] at hfound
    injection hfound with hfa
    exact ⟨q, hq1, hq2, hq3, hq4, hfa.symm⟩
  · rw [hex] at hfound; cases hfound

/-! ### Claims about `I2C_ComputeTiming` -/

/-- C1 (first fit): for a recognised bus frequency and a source clock between 15 Hz and
1 GHz, when the search of `I2C_ComputeTiming` reaches the macro with arguments `a`, the
prescaler `p = a.prescaler + 1` lies in 1..15, passes the constraint check, no smaller
prescaler from 1 on passes it, the arguments are exactly
`(p - 1, dataSetup - 1, dataHold, sclHigh - 1, sclLow - 1)` with `dataHold` not
decremented, and the function returns the macro applied to them. -/
theorem I2C_ComputeTiming_first_fit (convert : Nat → Nat → Nat → Nat → Nat → Nat)
    (uninit : MinTimes) (clock i2c_freq : Nat) (a : TimingArgs)
    (hf : Recognised i2c_freq) (h15 : 15 ≤ clock) (h9 : clock ≤ 1000000000)
    (hfound : searchTiming uninit clock i2c_freq = .found a) :
    1 ≤ a.prescaler + 1 ∧ a.prescaler + 1 ≤ 15 ∧
    Passes (selectMinTimes uninit i2c_freq) clock (a.prescaler + 1) ∧
    (∀ q, 1 ≤ q → q < a.prescaler + 1 → ¬ Passes (selectMinTimes uninit i2c_freq) clock q) ∧
    a = specFields (selectMinTimes uninit i2c_freq) clock (a.prescaler + 1) ∧
    I2C_ComputeTiming convert uninit clock i2c_freq =
      .returned (convert (a.prescaler + 1 - 1)
        (dataSetup (selectMinTimes uninit i2c_freq) clock (a.prescaler + 1) - 1)
        (dataHold (selectMinTimes uninit i2c_freq) clock (a.prescaler + 1))
        (sclHigh (selectMinTimes uninit i2c_freq) clock (a.prescaler + 1) - 1)
        (sclLow (selectMinTimes uninit i2c_freq) clock (a.prescaler + 1) - 1)) := by
  obtain ⟨p, hp1, hp15, hpass, hmin, ha⟩ := specFields_of_found hf h15 h9 hfound
  have hp : a.prescaler + 1 = p := by
    rw [ha]; simp only [specFields]; omega
  rw [hp]
  refine ⟨hp1, hp15, hpass, hmin, ha, ?_⟩
  unfold I2C_ComputeTiming
  rw [hfound, ha]
  simp [specFields]

/-- Witness for C1: a 200 MHz clock and a 100 kHz bus give prescaler 15 and the fields
(14, 15, 6, 52, 61). -/
theorem I2C_ComputeTiming_first_fit_witness :
    searchTiming ⟨0, 0, 0, 0⟩ 200000000 100000 = .found ⟨14, 15, 6, 52, 61⟩ ∧
    (1 ≤ 15 ∧ 15 ≤ 15 ∧
    Passes (selectMinTimes ⟨0, 0, 0, 0⟩ 100000) 200000000 15 ∧
    (∀ q, 1 ≤ q → q < 15 → ¬ Passes (selectMinTimes ⟨0, 0, 0, 0⟩ 100000) 200000000 q) ∧
    (⟨14, 15, 6, 52, 61⟩ : TimingArgs) =
      specFields (selectMinTimes ⟨0, 0, 0, 0⟩ 100000) 200000000 15 ∧
    I2C_ComputeTiming LL_I2C_CONVERT_TIMINGS ⟨0, 0, 0, 0⟩ 200000000 100000 =
      .returned (LL_I2C_CONVERT_TIMINGS (15 - 1)
        (dataSetup (selectMinTimes ⟨0, 0, 0, 0⟩ 100000) 200000000 15 - 1)
        (dataHold (selectMinTimes ⟨0, 0, 0, 0⟩ 100000) 200000000 15)
        (sclHigh (selectMinTimes ⟨0, 0, 0, 0⟩ 100000) 200000000 15 - 1)
        (sclLow (selectMinTimes ⟨0, 0, 0, 0⟩ 100000) 200000000 15 - 1))) :=
  ⟨by decide,
   I2C_ComputeTiming_first_fit LL_I2C_CONVERT_TIMINGS ⟨0, 0, 0, 0⟩ 200000000 100000
     ⟨14, 15, 6, 52, 61⟩ (by decide) (by decide) (by decide) (by decide)⟩

/-- C2 (zero signals failure exactly): for a recognised bus frequency, a source clock
between 15 Hz and 1 GHz and a packing that keeps the SCLL field in its low 8 bits,
`I2C_ComputeTiming` returns a word, and that word is `0` if and only if no prescaler
in 1..15 passes the constraint check; a search that ends without a fit returns the
initial `0`, and every fit has `scllPeriod ≥ 1` and a packed word different from `0`. -/
theorem I2C_ComputeTiming_zero_iff_no_fit (convert : Nat → Nat → Nat → Nat → Nat → Nat)
    (uninit : MinTimes) (clock i2c_freq : Nat)
    (hconv : ∀ a b c d e, convert a b c d e % 256 = e % 256)
    (hf : Recognised i2c_freq) (h15 : 15 ≤ clock) (h9 : clock ≤ 1000000000) :
    (∃ t, I2C_ComputeTiming convert uninit clock i2c_freq = .returned t) ∧
    (I2C_ComputeTiming convert uninit clock i2c_freq = .returned 0 ↔
      ∀ p, 1 ≤ p → p ≤ 15 → ¬ Passes (selectMinTimes uninit i2c_freq) clock p) ∧
    (searchTiming uninit clock i2c_freq = .exhausted →
      I2C_ComputeTiming convert uninit clock i2c_freq = .returned 0) ∧
    (∀ a, searchTiming uninit clock i2c_freq = .found a →
      1 ≤ a.scllPeriod ∧ a.scllPeriod ≤ 255 ∧
      I2C_ComputeTiming convert uninit clock i2c_freq ≠ .returned 0) := by
  have hm := selectMinTimes_sane uninit hf
  have hfit : ∀ a, searchTiming uninit clock i2c_freq = .found a →
      1 ≤ a.scllPeriod ∧ a.scllPeriod ≤ 255 ∧
      I2C_ComputeTiming convert uninit clock i2c_freq ≠ .returned 0 := by
    intro a hfound
    obtain ⟨p, hp1, hp15, hpass, _, ha⟩ := specFields_of_found hf h15 h9 hfound
    have h2 := two_le_sclLow hm hpass.2.2.2.1
    have h256 := hpass.2.1.2
    have hlo : 1 ≤ a.scllPeriod := by rw [ha]; simp only [specFields]; omega
    have hhi : a.scllPeriod ≤ 255 := by rw [ha]; simp only [specFields]; omega
    refine ⟨hlo, hhi, ?_⟩
    unfold I2C_ComputeTiming
    rw [hfound]
    intro hzero
    injection hzero with hz
    have := hconv a.prescaler a.setupTime a.holdTime a.sclhPeriod a.scllPeriod
    rw [hz] at this
    omega
  have hex : searchTiming uninit clock i2c_freq = .exhausted →
      I2C_ComputeTiming convert uninit clock i2c_freq = .returned 0 := by
    intro h; unfold I2C_ComputeTiming; rw [h]
  refine ⟨?_, ?_, hex, hfit⟩
  · rcases searchTiming_spec uninit hf h15 h9 with ⟨q, _, _, _, _, hq5⟩ | ⟨_, he⟩
    · exact ⟨_, by unfold I2C_ComputeTiming; rw [hq5]⟩
    · exact ⟨0, hex he⟩
  · rcases searchTiming_spec uninit hf h15 h9 with ⟨q, hq1, hq2, hq3, _, hq5⟩ | ⟨hnone, he⟩
    · constructor
      · intro hz; exact absurd hz (hfit _ hq5).2.2
      · intro hall; exact absurd hq3 (hall q hq1 hq2)
    · exact ⟨fun _ => hnone, fun _ => hex he⟩

/-- Witness for C2: with the register layout of the macro, a 1000 Hz clock and a 1 MHz
bus return `0`. -/
theorem I2C_ComputeTiming_zero_iff_no_fit_witness :
    I2C_ComputeTiming LL_I2C_CONVERT_TIMINGS ⟨0, 0, 0, 0⟩ 1000 1000000 = .returned 0 ∧
    ((∃ t, I2C_ComputeTiming LL_I2C_CONVERT_TIMINGS ⟨0, 0, 0, 0⟩ 1000 1000000 = .returned t) ∧
    (I2C_ComputeTiming LL_I2C_CONVERT_TIMINGS ⟨0, 0, 0, 0⟩ 1000 1000000 = .returned 0 ↔
      ∀ p, 1 ≤ p → p ≤ 15 → ¬ Passes (selectMinTimes ⟨0, 0, 0, 0⟩ 1000000) 1000 p) ∧
    (searchTiming ⟨0, 0, 0, 0⟩ 1000 1000000 = .exhausted →
      I2C_ComputeTiming LL_I2C_CONVERT_TIMINGS ⟨0, 0, 0, 0⟩ 1000 1000000 = .returned 0) ∧
    (∀ a, searchTiming ⟨0, 0, 0, 0⟩ 1000 1000000 = .found a →
      1 ≤ a.scllPeriod ∧ a.scllPeriod ≤ 255 ∧
      I2C_ComputeTiming LL_I2C_CONVERT_TIMINGS ⟨0, 0, 0, 0⟩ 1000 1000000 ≠ .returned 0)) :=
  ⟨by decide,
   I2C_ComputeTiming_zero_iff_no_fit LL_I2C_CONVERT_TIMINGS ⟨0, 0, 0, 0⟩ 1000 1000000
     LL_I2C_CONVERT_TIMINGS_low_byte (by decide) (by decide) (by decide)⟩

/-- C3 (field ranges on success): for a recognised bus frequency and a source clock
between 15 Hz and 1 GHz, the five values handed to the macro satisfy prescaler ≤ 14,
SCLH period ≤ 255, SCLL period ≤ 255, hold delay ≤ 15 and setup delay ≤ 15, so the 4-bit
and 8-bit masks of the register fields truncate none of them. -/
theorem I2C_ComputeTiming_fields_in_range (uninit : MinTimes) (clock i2c_freq : Nat)
    (a : TimingArgs) (hf : Recognised i2c_freq) (h15 : 15 ≤ clock)
    (h9 : clock ≤ 1000000000) (hfound : searchTiming uninit clock i2c_freq = .found a) :
    a.prescaler ≤ 14 ∧ a.sclhPeriod ≤ 255 ∧ a.scllPeriod ≤ 255 ∧ a.holdTime ≤ 15 ∧
    a.setupTime ≤ 15 ∧
    a.prescaler % 16 = a.prescaler ∧ a.sclhPeriod % 256 = a.sclhPeriod ∧
    a.scllPeriod % 256 = a.scllPeriod ∧ a.holdTime % 16 = a.holdTime ∧
    a.setupTime % 16 = a.setupTime := by
  obtain ⟨p, hp1, hp15, hpass, _, ha⟩ := specFields_of_found hf h15 h9 hfound
  obtain ⟨⟨a1, a2⟩, ⟨b1, b2⟩, c, d1, d2⟩ := hpass
  rw [ha]
  simp only [specFields]
  omega

/-- Witness for C3 at a 200 MHz clock and a 100 kHz bus. -/
theorem I2C_ComputeTiming_fields_in_range_witness :
    searchTiming ⟨0, 0, 0, 0⟩ 200000000 100000 = .found ⟨14, 15, 6, 52, 61⟩ ∧
    ((14 : Nat) ≤ 14 ∧ (52 : Nat) ≤ 255 ∧ (61 : Nat) ≤ 255 ∧ (6 : Nat) ≤ 15 ∧ (15 : Nat) ≤ 15 ∧
    14 % 16 = 14 ∧ 52 % 256 = 52 ∧ 61 % 256 = 61 ∧ 6 % 16 = 6 ∧ 15 % 16 = 15) :=
  ⟨by decide,
   I2C_ComputeTiming_fields_in_range ⟨0, 0, 0, 0⟩ 200000000 100000 ⟨14, 15, 6, 52, 61⟩
     (by decide) (by decide) (by decide) (by decide)⟩

/-! ### Recognised frequencies do not depend on the uninitialised locals -/

theorem selectMinTimes_uninit (u v : MinTimes) {i2c_freq : Nat} (hf : Recognised i2c_freq) :
    selectMinTimes u i2c_freq = selectMinTimes v i2c_freq := by
  rcases hf with h | h | h <;> subst h <;> simp [selectMinTimes]

theorem searchTiming_uninit (u v : MinTimes) (clock : Nat) {i2c_freq : Nat}
    (hf : Recognised i2c_freq) :
    searchTiming u clock i2c_freq = searchTiming v clock i2c_freq := by
  unfold searchTiming; rw [selectMinTimes_uninit u v hf]

theorem I2C_ComputeTiming_of_exhausted (convert : Nat → Nat → Nat → Nat → Nat → Nat)
    (uninit : MinTimes) (clock i2c_freq : Nat)
    (h : searchTiming uninit clock i2c_freq = .exhausted) :
    I2C_ComputeTiming convert uninit clock i2c_freq = .returned 0 := by
  unfold I2C_ComputeTiming; rw [h]

theorem I2C_ComputeTiming_of_found (convert : Nat → Nat → Nat → Nat → Nat → Nat)
    (uninit : MinTimes) (clock i2c_freq : Nat) (a : TimingArgs)
    (h : searchTiming uninit clock i2c_freq = .found a) :
    I2C_ComputeTiming convert uninit clock i2c_freq =
      .returned (convert a.prescaler a.setupTime a.holdTime a.sclhPeriod a.scllPeriod) := by
  unfold I2C_ComputeTiming; rw [h]

theorem I2C_ComputeTiming_of_divByZero (convert : Nat → Nat → Nat → Nat → Nat → Nat)
    (uninit : MinTimes) (clock i2c_freq : Nat)
    (h : searchTiming uninit clock i2c_freq = .divByZero) :
    I2C_ComputeTiming convert uninit clock i2c_freq = .divByZero := by
  unfold I2C_ComputeTiming; rw [h]

theorem returnsTimingInRange_of (convert : Nat → Nat → Nat → Nat → Nat → Nat)
    (uninit : MinTimes) (clock i2c_freq : Nat) (a : TimingArgs) (hf : Recognised i2c_freq)
    (h : searchTiming ⟨0, 0, 0, 0⟩ clock i2c_freq = .found a) (hr : InDocumentedRanges a) :
    ReturnsTimingInRange convert uninit clock i2c_freq := by
  have h2 : searchTiming uninit clock i2c_freq = .found a := by
    rw [searchTiming_uninit uninit ⟨0, 0, 0, 0⟩ clock hf]; exact h
  refine ⟨a, h2, ?_, hr⟩
  unfold I2C_ComputeTiming; rw [h2]

/-- C4, as stated, fails: with a 480 MHz source clock and a 100 kHz bus no prescaler in
1..15 passes the check (the hold count is 16 even at prescaler 15), the loop ends with its
condition false and `I2C_ComputeTiming` returns the failure value `0`. -/
theorem I2C_ComputeTiming_480MHz_100kHz_fails :
    searchTiming ⟨0, 0, 0, 0⟩ 480000000 100000 = .exhausted ∧
    I2C_ComputeTiming LL_I2C_CONVERT_TIMINGS ⟨0, 0, 0, 0⟩ 480000000 100000 = .returned 0 ∧
    dataHold (selectMinTimes ⟨0, 0, 0, 0⟩ 100000) 480000000 15 = 16 ∧
    ¬ ReturnsTimingInRange LL_I2C_CONVERT_TIMINGS ⟨0, 0, 0, 0⟩ 480000000 100000 := by
  refine ⟨by decide, by decide, by decide, ?_⟩
  rintro ⟨a, ha, _⟩
  have h : searchTiming ⟨0, 0, 0, 0⟩ 480000000 100000 = .exhausted := by decide
  rw [h] at ha
  cases ha

/-- C4, amended: for the source clocks 100 MHz and 200 MHz with each of the three bus
frequencies, and for 480 MHz with 400 kHz and 1 MHz, `I2C_ComputeTiming` finds a timing
whose five fields are within their documented ranges; for 480 MHz with 100 kHz it
returns the failure value `0`. -/
theorem I2C_ComputeTiming_representative_clocks
    (convert : Nat → Nat → Nat → Nat → Nat → Nat) (uninit : MinTimes) :
    ReturnsTimingInRange convert uninit 100000000 100000 ∧
    ReturnsTimingInRange convert uninit 100000000 400000 ∧
    ReturnsTimingInRange convert uninit 100000000 1000000 ∧
    ReturnsTimingInRange convert uninit 200000000 100000 ∧
    ReturnsTimingInRange convert uninit 200000000 400000 ∧
    ReturnsTimingInRange convert uninit 200000000 1000000 ∧
    ReturnsTimingInRange convert uninit 480000000 400000 ∧
    ReturnsTimingInRange convert uninit 480000000 1000000 ∧
    I2C_ComputeTiming convert uninit 480000000 100000 = .returned 0 := by
  have hzero : I2C_ComputeTiming convert uninit 480000000 100000 = .returned 0 :=
    I2C_ComputeTiming_of_exhausted convert uninit 480000000 100000
      ((searchTiming_uninit uninit ⟨0, 0, 0, 0⟩ 480000000 (by decide)).trans (by decide))
  exact ⟨returnsTimingInRange_of convert uninit 100000000 100000 ⟨7, 14, 6, 49, 57⟩ (by decide) (by decide) (by decide),
    returnsTimingInRange_of convert uninit 100000000 400000 ⟨2, 15, 12, 19, 42⟩ (by decide) (by decide) (by decide),
    returnsTimingInRange_of convert uninit 100000000 1000000 ⟨0, 11, 5, 39, 46⟩ (by decide) (by decide) (by decide),
    returnsTimingInRange_of convert uninit 200000000 100000 ⟨14, 15, 6, 52, 61⟩ (by decide) (by decide) (by decide),
    returnsTimingInRange_of convert uninit 200000000 400000 ⟨5, 15, 12, 19, 42⟩ (by decide) (by decide) (by decide),
    returnsTimingInRange_of convert uninit 200000000 1000000 ⟨1, 11, 5, 39, 46⟩ (by decide) (by decide) (by decide),
    returnsTimingInRange_of convert uninit 480000000 400000 ⟨14, 15, 12, 18, 40⟩ (by decide) (by decide) (by decide),
    returnsTimingInRange_of convert uninit 480000000 1000000 ⟨3, 14, 6, 49, 57⟩ (by decide) (by decide) (by decide),
    hzero⟩

/-- C5: for the unsupported bus frequency 250000 the `switch` assigns nothing and the
search runs on whatever the four locals hold.  With a 100 MHz clock and the values of the
100 kHz profile left in them, `I2C_ComputeTiming` returns the non-zero timing word
`0x70E63139`, the word it returns for 100 kHz; with the values of the 1 MHz profile it
returns `0x00B5272E`.  The frequency is not rejected and the result is not determined by
the two arguments. -/
theorem I2C_ComputeTiming_unsupported_frequency_not_rejected :
    selectMinTimes ⟨4000, 4700, 500, 1250⟩ 250000 = ⟨4000, 4700, 500, 1250⟩ ∧
    searchTiming ⟨4000, 4700, 500, 1250⟩ 100000000 250000 = .found ⟨7, 14, 6, 49, 57⟩ ∧
    I2C_ComputeTiming LL_I2C_CONVERT_TIMINGS ⟨4000, 4700, 500, 1250⟩ 100000000 250000 =
      .returned 0x70E63139 ∧
    I2C_ComputeTiming LL_I2C_CONVERT_TIMINGS ⟨4000, 4700, 500, 1250⟩ 100000000 250000 =
      I2C_ComputeTiming LL_I2C_CONVERT_TIMINGS ⟨0, 0, 0, 0⟩ 100000000 100000 ∧
    I2C_ComputeTiming LL_I2C_CONVERT_TIMINGS ⟨400, 470, 50, 125⟩ 100000000 250000 =
      .returned 0x00B5272E := by
  refine ⟨by decide, by decide, by decide, by decide, by decide⟩

/-! ### Monotonicity in the prescaler -/

theorem nsPerTick_mono {clock p q : Nat} (h15 : 15 ≤ clock) (hp1 : 1 ≤ p) (hpq : p ≤ q)
    (hq15 : q ≤ 15) : nsPerTick clock p ≤ nsPerTick clock q := by
  unfold nsPerTick
  have hq : 0 < clock / q := Nat.div_pos (by omega) (by omega)
  have hle : clock / q ≤ clock / p := Nat.div_le_div_left hpq (by omega)
  exact Nat.div_le_div_left hle hq

theorem nsPerTick_pos {clock p : Nat} (h15 : 15 ≤ clock) (h9 : clock ≤ 1000000000)
    (hp1 : 1 ≤ p) (hp15 : p ≤ 15) : 0 < nsPerTick clock p := by
  have h := (divisors_ne_zero h15 h9 hp1 hp15).2.2
  unfold nsPerTick
  simp only [NSEC_PER_SEC] at h
  exact Nat.pos_of_ne_zero h

theorem count_antitone (x : Nat) {clock p q : Nat} (h15 : 15 ≤ clock)
    (h9 : clock ≤ 1000000000) (hp1 : 1 ≤ p) (hpq : p ≤ q) (hq15 : q ≤ 15) :
    x / nsPerTick clock q ≤ x / nsPerTick clock p :=
  Nat.div_le_div_left (nsPerTick_mono h15 hp1 hpq hq15)
    (nsPerTick_pos h15 h9 hp1 (le_trans hpq hq15))

/-- C8 (monotonicity of the search quantities): for a recognised bus frequency, a source
clock between 15 Hz and 1 GHz and prescalers `1 ≤ p ≤ q ≤ 15`, the loop body at `p` and at
`q` is decided by the counts `profile minimum / nsPerTick`, `nsPerTick` does not decrease
from `p` to `q`, none of the four counts increases, and so each upper bound (`sclHigh ≤ 256`,
`sclLow ≤ 256`, `dataHold ≤ 15`, `dataSetup ≤ 16`) that holds at `p` holds at `q`. -/
theorem search_quantities_monotone (uninit : MinTimes) (clock i2c_freq p q : Nat)
    (hf : Recognised i2c_freq) (h15 : 15 ≤ clock) (h9 : clock ≤ 1000000000)
    (hp1 : 1 ≤ p) (hpq : p ≤ q) (hq15 : q ≤ 15) :
    (loopBody (selectMinTimes uninit i2c_freq) clock p =
      if CodedCheck (selectMinTimes uninit i2c_freq) clock p
      then .found (codedFields (selectMinTimes uninit i2c_freq) clock p)
      else .next (addOne p)) ∧
    (loopBody (selectMinTimes uninit i2c_freq) clock q =
      if CodedCheck (selectMinTimes uninit i2c_freq) clock q
      then .found (codedFields (selectMinTimes uninit i2c_freq) clock q)
      else .next (addOne q)) ∧
    nsPerTick clock p ≤ nsPerTick clock q ∧
    sclHigh (selectMinTimes uninit i2c_freq) clock q ≤
      sclHigh (selectMinTimes uninit i2c_freq) clock p ∧
    sclLow (selectMinTimes uninit i2c_freq) clock q ≤
      sclLow (selectMinTimes uninit i2c_freq) clock p ∧
    dataHold (selectMinTimes uninit i2c_freq) clock q ≤
      dataHold (selectMinTimes uninit i2c_freq) clock p ∧
    dataSetup (selectMinTimes uninit i2c_freq) clock q ≤
      dataSetup (selectMinTimes uninit i2c_freq) clock p ∧
    (sclHigh (selectMinTimes uninit i2c_freq) clock p ≤ 256 →
      sclHigh (selectMinTimes uninit i2c_freq) clock q ≤ 256) ∧
    (sclLow (selectMinTimes uninit i2c_freq) clock p ≤ 256 →
      sclLow (selectMinTimes uninit i2c_freq) clock q ≤ 256) ∧
    (dataHold (selectMinTimes uninit i2c_freq) clock p ≤ 15 →
      dataHold (selectMinTimes uninit i2c_freq) clock q ≤ 15) ∧
    (dataSetup (selectMinTimes uninit i2c_freq) clock p ≤ 16 →
      dataSetup (selectMinTimes uninit i2c_freq) clock q ≤ 16) := by
  have _hm := selectMinTimes_sane uninit hf
  have a1 := count_antitone (selectMinTimes uninit i2c_freq).i2c_h_min_time h15 h9 hp1 hpq hq15
  have a2 := count_antitone (selectMinTimes uninit i2c_freq).i2c_l_min_time h15 h9 hp1 hpq hq15
  have a3 := count_antitone (selectMinTimes uninit i2c_freq).i2c_hold_time_min h15 h9 hp1 hpq
    hq15
  have a4 := count_antitone (selectMinTimes uninit i2c_freq).i2c_setup_time_min h15 h9 hp1 hpq
    hq15
  refine ⟨loopBody_eq _ h15 h9 hp1 (le_trans hpq hq15),
    loopBody_eq _ h15 h9 (le_trans hp1 hpq) hq15,
    nsPerTick_mono h15 hp1 hpq hq15, a1, a2, a3, a4, ?_, ?_, ?_, ?_⟩
  · intro h; exact le_trans a1 h
  · intro h; exact le_trans a2 h
  · intro h; exact le_trans a3 h
  · intro h; exact le_trans a4 h

/-- Witness for C8 at a 200 MHz clock, a 100 kHz bus and the prescalers 1 and 15: the
tick grows from 5 ns to 75 ns and the high count shrinks from 800 to 53. -/
theorem search_quantities_monotone_witness :
    (Recognised 100000 ∧ 15 ≤ 200000000 ∧ 200000000 ≤ 1000000000) ∧
    nsPerTick 200000000 1 = 5 ∧ nsPerTick 200000000 15 = 75 ∧
    sclHigh (selectMinTimes ⟨0, 0, 0, 0⟩ 100000) 200000000 1 = 800 ∧
    sclHigh (selectMinTimes ⟨0, 0, 0, 0⟩ 100000) 200000000 15 = 53 ∧
    nsPerTick 200000000 1 ≤ nsPerTick 200000000 15 ∧
    sclHigh (selectMinTimes ⟨0, 0, 0, 0⟩ 100000) 200000000 15 ≤
      sclHigh (selectMinTimes ⟨0, 0, 0, 0⟩ 100000) 200000000 1 :=
  have h := search_quantities_monotone ⟨0, 0, 0, 0⟩ 200000000 100000 1 15
    (by decide) (by decide) (by decide) (by decide) (by decide) (by decide)
  ⟨⟨by decide, by decide, by decide⟩, by decide, by decide, by decide, by decide,
    h.2.2.1, h.2.2.2.1⟩

/-! ### Raising the prescaler -/

theorem found_iff_codedCheck (m : MinTimes) {clock p : Nat} (h15 : 15 ≤ clock)
    (h9 : clock ≤ 1000000000) (hp1 : 1 ≤ p) (hp15 : p ≤ 15) :
    (∃ a, loopBody m clock p = .found a) ↔ CodedCheck m clock p := by
  rw [loopBody_eq m h15 h9 hp1 hp15]
  by_cases hc : CodedCheck m clock p
  · simp [hc]
  · simp [hc]

/-- C9, as stated, fails: with a 16 MHz clock and a 1 MHz bus the coded check passes at
prescaler 1 (the macro is reached with fields (0, 1, 0, 5, 6)) and fails at prescaler 3,
where the setup count `125 / 187` is `0` and `scldel - 1` wraps around, so that the
second `continue` is taken. -/
theorem coded_check_not_monotone :
    loopBody (selectMinTimes ⟨0, 0, 0, 0⟩ 1000000) 16000000 1 = .found ⟨0, 1, 0, 5, 6⟩ ∧
    loopBody (selectMinTimes ⟨0, 0, 0, 0⟩ 1000000) 16000000 3 = .next 4 ∧
    dataSetup (selectMinTimes ⟨0, 0, 0, 0⟩ 1000000) 16000000 3 = 0 ∧
    subOne (dataSetup (selectMinTimes ⟨0, 0, 0, 0⟩ 1000000) 16000000 3) = 4294967295 ∧
    ¬ (∀ clock p q, 15 ≤ clock → clock ≤ 1000000000 → 1 ≤ p → p ≤ q → q ≤ 15 →
        (∃ a, loopBody (selectMinTimes ⟨0, 0, 0, 0⟩ 1000000) clock p = .found a) →
        ∃ b, loopBody (selectMinTimes ⟨0, 0, 0, 0⟩ 1000000) clock q = .found b) := by
  refine ⟨by decide, by decide, by decide, by decide, ?_⟩
  intro hall
  obtain ⟨b, hb⟩ := hall 16000000 1 3 (by decide) (by decide) (by decide) (by decide)
    (by decide) ⟨⟨0, 1, 0, 5, 6⟩, by decide⟩
  have h3 : loopBody (selectMinTimes ⟨0, 0, 0, 0⟩ 1000000) 16000000 3 = .next 4 := by decide
  rw [h3] at hb
  cases hb

/-- C9, amended: for a recognised bus frequency, a source clock between 15 Hz and 1 GHz
and prescalers `1 ≤ p ≤ q ≤ 15`, if the coded check passes at `p` (the loop body reaches
the macro) and the setup count at `q` is still at least 1, then the coded check passes
at `q`. -/
theorem coded_check_monotone_while_setup_count_positive (uninit : MinTimes)
    (clock i2c_freq p q : Nat) (hf : Recognised i2c_freq) (h15 : 15 ≤ clock)
    (h9 : clock ≤ 1000000000) (hp1 : 1 ≤ p) (hpq : p ≤ q) (hq15 : q ≤ 15)
    (hpass : ∃ a, loopBody (selectMinTimes uninit i2c_freq) clock p = .found a)
    (hsetup : 1 ≤ dataSetup (selectMinTimes uninit i2c_freq) clock q) :
    ∃ b, loopBody (selectMinTimes uninit i2c_freq) clock q = .found b := by
  have hm := selectMinTimes_sane uninit hf
  have hp15 : p ≤ 15 := le_trans hpq hq15
  have hq1 : 1 ≤ q := le_trans hp1 hpq
  rw [found_iff_codedCheck _ h15 h9 hp1 hp15, codedCheck_iff_passes hm] at hpass
  rw [found_iff_codedCheck _ h15 h9 hq1 hq15, codedCheck_iff_passes hm]
  obtain ⟨⟨_, a2⟩, ⟨_, b2⟩, c, _, d2⟩ := hpass
  have m1 := count_antitone (selectMinTimes uninit i2c_freq).i2c_h_min_time h15 h9 hp1 hpq hq15
  have m2 := count_antitone (selectMinTimes uninit i2c_freq).i2c_l_min_time h15 h9 hp1 hpq hq15
  have m3 := count_antitone (selectMinTimes uninit i2c_freq).i2c_hold_time_min h15 h9 hp1 hpq
    hq15
  have m4 := count_antitone (selectMinTimes uninit i2c_freq).i2c_setup_time_min h15 h9 hp1 hpq
    hq15
  have hlow := two_le_sclLow hm hsetup
  have hhigh : 1 ≤ sclHigh (selectMinTimes uninit i2c_freq) clock q := by
    have hn := nsPerTick_pos h15 h9 hq1 hq15
    have hs := hsetup
    unfold dataSetup at hs
    unfold sclHigh
    have h1 := (Nat.le_div_iff_mul_le hn).mp hs
    rw [Nat.le_div_iff_mul_le hn]
    have := hm.setup_le_h
    omega
  exact ⟨⟨hhigh, le_trans m1 a2⟩, ⟨le_trans (by decide) hlow, le_trans m2 b2⟩,
    le_trans m3 c, hsetup, le_trans m4 d2⟩

/-- Witness for the amended C9: a 16 MHz clock, a 1 MHz bus, prescalers 1 and 2. -/
theorem coded_check_monotone_while_setup_count_positive_witness :
    (Recognised 1000000 ∧
      (∃ a, loopBody (selectMinTimes ⟨0, 0, 0, 0⟩ 1000000) 16000000 1 = .found a) ∧
      1 ≤ dataSetup (selectMinTimes ⟨0, 0, 0, 0⟩ 1000000) 16000000 2) ∧
    ∃ b, loopBody (selectMinTimes ⟨0, 0, 0, 0⟩ 1000000) 16000000 2 = .found b :=
  ⟨⟨by decide, ⟨⟨0, 1, 0, 5, 6⟩, by decide⟩, by decide⟩,
   coded_check_monotone_while_setup_count_positive ⟨0, 0, 0, 0⟩ 16000000 1000000 1 2
    (by decide) (by decide) (by decide) (by decide) (by decide) (by decide)
    ⟨⟨0, 1, 0, 5, 6⟩, by decide⟩ (by decide)⟩

/-! ### Division safety -/

theorem searchTiming_small_clock {clock i2c_freq : Nat} (hc : clock < 15)
    (hf : Recognised i2c_freq) : searchTiming ⟨0, 0, 0, 0⟩ clock i2c_freq = .divByZero := by
  rcases hf with h | h | h <;> subst h <;> interval_cases clock <;> decide

theorem loopBody_large_clock (m : MinTimes) {clock : Nat} (hc : 1000000000 < clock) :
    loopBody m clock 1 = .divByZero := by
  have h1 : clock / 1 ≠ 0 := by rw [Nat.div_one]; omega
  have h2 : NSEC_PER_SEC / (clock / 1) = 0 := by
    rw [Nat.div_one]; exact Nat.div_eq_of_lt hc
  unfold loopBody
  simp only [h1, h2, if_true, if_false, one_ne_zero]

theorem searchTiming_large_clock (uninit : MinTimes) {clock : Nat} (i2c_freq : Nat)
    (hc : 1000000000 < clock) : searchTiming uninit clock i2c_freq = .divByZero := by
  unfold searchTiming
  show (match loopBody (selectMinTimes uninit i2c_freq) clock 1 with
    | .divByZero => LoopExit.divByZero
    | .found args => .found args
    | .next presc1 =>
      if presc1 < 16 then doWhile (selectMinTimes uninit i2c_freq) clock 14 presc1
      else .exhausted) = .divByZero
  rw [loopBody_large_clock _ hc]

theorem I2C_ComputeTiming_divByZero_iff (convert : Nat → Nat → Nat → Nat → Nat → Nat)
    (uninit : MinTimes) (clock i2c_freq : Nat) :
    I2C_ComputeTiming convert uninit clock i2c_freq = .divByZero ↔
      searchTiming uninit clock i2c_freq = .divByZero := by
  unfold I2C_ComputeTiming
  cases searchTiming uninit clock i2c_freq <;> simp

theorem I2C_ComputeTiming_outOfFuel_iff (convert : Nat → Nat → Nat → Nat → Nat → Nat)
    (uninit : MinTimes) (clock i2c_freq : Nat) :
    I2C_ComputeTiming convert uninit clock i2c_freq = .outOfFuel ↔
      searchTiming uninit clock i2c_freq = .outOfFuel := by
  unfold I2C_ComputeTiming
  cases searchTiming uninit clock i2c_freq <;> simp

/-- C10 (division safety): for a recognised bus frequency and a 32-bit source clock,
`I2C_ComputeTiming` executes a division by zero if and only if the clock is below 15 Hz or
above 1 GHz; for a clock between 15 Hz and 1 GHz the three divisors `presc`,
`clock_src_freq / presc` and `NSEC_PER_SEC / t_presc` are non-zero at every prescaler in
1..15, no execution of the loop body faults, and the loop ends within 15 executions of its
body. -/
theorem I2C_ComputeTiming_division_safety (convert : Nat → Nat → Nat → Nat → Nat → Nat)
    (uninit : MinTimes) (clock i2c_freq : Nat) (hf : Recognised i2c_freq)
    (h32 : clock < 4294967296) :
    (I2C_ComputeTiming convert uninit clock i2c_freq = .divByZero ↔
      clock < 15 ∨ 1000000000 < clock) ∧
    (15 ≤ clock → clock ≤ 1000000000 →
      (∀ p, 1 ≤ p → p ≤ 15 →
        p ≠ 0 ∧ clock / p ≠ 0 ∧ NSEC_PER_SEC / (clock / p) ≠ 0 ∧
        loopBody (selectMinTimes uninit i2c_freq) clock p ≠ .divByZero) ∧
      searchTiming uninit clock i2c_freq ≠ .outOfFuel ∧
      I2C_ComputeTiming convert uninit clock i2c_freq ≠ .outOfFuel) := by
  have _h := h32
  constructor
  · rw [I2C_ComputeTiming_divByZero_iff]
    constructor
    · intro hdiv
      by_contra hcon
      have h15 : 15 ≤ clock := by omega
      have h9 : clock ≤ 1000000000 := by omega
      rcases searchTiming_spec uninit hf h15 h9 with ⟨q, _, _, _, _, hq⟩ | ⟨_, hex⟩
      · rw [hq] at hdiv; cases hdiv
      · rw [hex] at hdiv; cases hdiv
    · rintro (hlt | hgt)
      · rw [searchTiming_uninit uninit ⟨0, 0, 0, 0⟩ clock hf]
        exact searchTiming_small_clock hlt hf
      · exact searchTiming_large_clock uninit i2c_freq hgt
  · intro h15 h9
    have hfuel : searchTiming uninit clock i2c_freq ≠ .outOfFuel := by
      intro hout
      rcases searchTiming_spec uninit hf h15 h9 with ⟨q, _, _, _, _, hq⟩ | ⟨_, hex⟩
      · rw [hq] at hout; cases hout
      · rw [hex] at hout; cases hout
    refine ⟨?_, hfuel, ?_⟩
    · intro p hp1 hp15
      obtain ⟨d1, d2, d3⟩ := divisors_ne_zero h15 h9 hp1 hp15
      refine ⟨d1, d2, d3, ?_⟩
      rw [loopBody_eq _ h15 h9 hp1 hp15]
      by_cases hc : CodedCheck (selectMinTimes uninit i2c_freq) clock p
      · simp [hc]
      · simp [hc]
    · intro hout
      exact hfuel ((I2C_ComputeTiming_outOfFuel_iff convert uninit clock i2c_freq).mp hout)

/-- Witness for C10: a 14 Hz clock divides by zero (at prescaler 15, where
`14 / 15 = 0`), a 15 Hz clock does not. -/
theorem I2C_ComputeTiming_division_safety_witness :
    (Recognised 100000 ∧ 14 < 4294967296) ∧
    I2C_ComputeTiming LL_I2C_CONVERT_TIMINGS ⟨0, 0, 0, 0⟩ 14 100000 = .divByZero ∧
    I2C_ComputeTiming LL_I2C_CONVERT_TIMINGS ⟨0, 0, 0, 0⟩ 15 100000 = .returned 0 ∧
    I2C_ComputeTiming LL_I2C_CONVERT_TIMINGS ⟨0, 0, 0, 0⟩ 1000000001 100000 = .divByZero ∧
    (I2C_ComputeTiming LL_I2C_CONVERT_TIMINGS ⟨0, 0, 0, 0⟩ 14 100000 = .divByZero ↔
      14 < 15 ∨ 1000000000 < 14) ∧
    searchTiming ⟨0, 0, 0, 0⟩ 15 100000 ≠ .outOfFuel :=
  ⟨⟨by decide, by decide⟩, by decide, by decide, by decide,
   (I2C_ComputeTiming_division_safety LL_I2C_CONVERT_TIMINGS ⟨0, 0, 0, 0⟩ 14 100000
     (by decide) (by decide)).1,
   ((I2C_ComputeTiming_division_safety LL_I2C_CONVERT_TIMINGS ⟨0, 0, 0, 0⟩ 15 100000
     (by decide) (by decide)).2 (by decide) (by decide)).2.1⟩

end I2CDevice

namespace SpiApi

/-! ### Claims about the SPI adapter -/

theorem toUint32_of_nonneg {x : Int} (h0 : 0 ≤ x) (h1 : x < 4294967296) :
    (toUint32 x : Int) = x := by
  unfold toUint32; omega

/-- C6 (SPI mode table): for `bits` in 4..16, `mode` in 0..3 and any `slave`,
`spi_format` fails no assertion and makes exactly two pico-sdk calls: `spi_set_format`
with data bits `bits`, polarity `mode / 2`, phase `mode mod 2` and MSB first, then
`spi_set_slave` with `slave != 0`; for `bits` outside 4..16 or `mode` outside 0..3 an
assertion fails. -/
theorem spi_format_mode_table (obj : spi_t) (bits mode slave : Int) :
    ((4 ≤ bits ∧ bits ≤ 16) ∧ (0 ≤ mode ∧ mode ≤ 3) →
      ∃ cpol cpha data_bits,
        spi_format obj bits mode slave =
          .ok [.spi_set_format obj.dev data_bits cpol cpha .SPI_MSB_FIRST,
               .spi_set_slave obj.dev (decide (slave ≠ 0))] ∧
        (data_bits : Int) = bits ∧ cpol.val = mode / 2 ∧ cpha.val = mode % 2) ∧
    (¬ ((4 ≤ bits ∧ bits ≤ 16) ∧ (0 ≤ mode ∧ mode ≤ 3)) →
      ∃ e, spi_format obj bits mode slave = .error e) := by
  constructor
  · rintro ⟨⟨hb1, hb2⟩, hm1, hm2⟩
    have hbits : (toUint32 bits : Int) = bits := toUint32_of_nonneg (by omega) (by omega)
    have hA : ¬ ¬ (bits ≥ 4 ∧ bits ≤ 16) := not_not.mpr ⟨hb1, hb2⟩
    have hB : ¬ ¬ (mode ≥ 0 ∧ mode ≤ 3) := not_not.mpr ⟨hm1, hm2⟩
    unfold spi_format
    rw [if_neg hA, if_neg hB]
    interval_cases mode
    · exact ⟨.SPI_CPOL_0, .SPI_CPHA_0, toUint32 bits, rfl, hbits, rfl, rfl⟩
    · exact ⟨.SPI_CPOL_0, .SPI_CPHA_1, toUint32 bits, rfl, hbits, rfl, rfl⟩
    · exact ⟨.SPI_CPOL_1, .SPI_CPHA_0, toUint32 bits, rfl, hbits, rfl, rfl⟩
    · exact ⟨.SPI_CPOL_1, .SPI_CPHA_1, toUint32 bits, rfl, hbits, rfl, rfl⟩
  · intro h
    unfold spi_format
    by_cases hA : (bits ≥ 4 ∧ bits ≤ 16)
    · have hB : ¬ (mode ≥ 0 ∧ mode ≤ 3) := fun hm => h ⟨hA, hm⟩
      rw [if_neg (not_not.mpr hA), if_pos hB]
      exact ⟨_, rfl⟩
    · rw [if_pos hA]
      exact ⟨_, rfl⟩

/-- Witness for C6: `bits = 8`, `mode = 3` as master gives polarity 1 and phase 1, and
`bits = 3` or `mode = 4` fails an assertion. -/
theorem spi_format_mode_table_witness :
    spi_format ⟨0⟩ 8 3 0 =
      .ok [.spi_set_format 0 8 .SPI_CPOL_1 .SPI_CPHA_1 .SPI_MSB_FIRST,
           .spi_set_slave 0 false] ∧
    spi_format ⟨0⟩ 3 3 0 = .error (.line 49) ∧
    spi_format ⟨0⟩ 8 4 0 = .error (.line 50) ∧
    (∃ cpol cpha data_bits,
        spi_format ⟨0⟩ 8 3 0 =
          .ok [.spi_set_format 0 data_bits cpol cpha .SPI_MSB_FIRST,
               .spi_set_slave 0 (decide ((0 : Int) ≠ 0))] ∧
        (data_bits : Int) = 8 ∧ cpol.val = 3 / 2 ∧ cpha.val = 3 % 2) ∧
    (∃ e, spi_format ⟨0⟩ 3 3 0 = .error e) :=
  ⟨rfl, rfl, rfl,
   (spi_format_mode_table ⟨0⟩ 8 3 0).1 ⟨⟨by decide, by decide⟩, by decide, by decide⟩,
   (spi_format_mode_table ⟨0⟩ 3 3 0).2 (by decide)⟩

theorem toUint32_eq_toNat {x : Int} (h0 : 0 ≤ x) (h1 : x ≤ 2147483647) :
    toUint32 x = x.toNat := by
  unfold toUint32; omega

/-- C7 (SPI transfer length check): for a transmit length that is the length of a buffer
(`0 ≤ tx_length ≤ INT_MAX`), `spi_master_block_write` fails its assertion if and only if
`tx_length != rx_length`; when the lengths are equal it makes one call of
`spi_write_read_blocking` with exactly `tx_length` bytes and returns that routine's result
unchanged, whatever `write_fill` is; `spi_master_write`, which passes the lengths 1 and 1,
never fails the length check and makes that one call with length 1. -/
theorem spi_master_block_write_length_check
    (sdk : Nat → List Nat → List Nat → Nat → Int × List Nat) (obj : spi_t)
    (tx_buffer : List Nat) (tx_length : Int) (rx_buffer : List Nat) (rx_length : Int)
    (write_fill : Nat) (h0 : 0 ≤ tx_length) (hmax : tx_length ≤ 2147483647) :
    ((∃ e, spi_master_block_write sdk obj tx_buffer tx_length rx_buffer rx_length write_fill =
        .error e) ↔ tx_length ≠ rx_length) ∧
    (tx_length = rx_length →
      spi_master_block_write sdk obj tx_buffer tx_length rx_buffer rx_length write_fill =
        .ok { ret := (sdk obj.dev tx_buffer rx_buffer tx_length.toNat).1,
              rx_buffer := (sdk obj.dev tx_buffer rx_buffer tx_length.toNat).2,
              calls := [.spi_write_read_blocking obj.dev tx_buffer tx_length.toNat] }) ∧
    ((tx_length.toNat : Int) = tx_length) ∧
    (∀ other_fill,
      spi_master_block_write sdk obj tx_buffer tx_length rx_buffer rx_length other_fill =
        spi_master_block_write sdk obj tx_buffer tx_length rx_buffer rx_length write_fill) ∧
    (∀ value rx,
      spi_master_write sdk obj value rx =
        .ok ((((sdk obj.dev [toUint8 value] [rx] 1).2.headD rx : Nat) : Int),
             [.spi_write_read_blocking obj.dev [toUint8 value] 1])) := by
  refine ⟨?_, ?_, ?_, ?_, ?_⟩
  · unfold spi_master_block_write
    by_cases h : tx_length = rx_length
    · rw [if_neg (not_not.mpr h)]
      constructor
      · rintro ⟨e, he⟩; cases he
      · intro hne; exact absurd h hne
    · rw [if_pos h]
      exact ⟨fun _ => h, fun _ => ⟨_, rfl⟩⟩
  · intro h
    unfold spi_master_block_write
    rw [if_neg (not_not.mpr h), toUint32_eq_toNat h0 hmax]
  · exact Int.toNat_of_nonneg h0
  · intro other_fill; rfl
  · intro value rx; rfl

/-- Witness for C7: a transmit length of 1 with a receive length of 2 fails the assertion,
equal lengths of 1 run one write-read of 1 byte. -/
theorem spi_master_block_write_length_check_witness :
    spi_master_block_write echoSdk ⟨0⟩ [18] 1 [0, 0] 2 32 = .error (.line 90) ∧
    spi_master_block_write echoSdk ⟨0⟩ [18] 1 [0] 1 32 =
      .ok { ret := 1, rx_buffer := [18], calls := [.spi_write_read_blocking 0 [18] 1] } ∧
    spi_master_write echoSdk ⟨0⟩ 18 0 = .ok (18, [.spi_write_read_blocking 0 [18] 1]) ∧
    ((∃ e, spi_master_block_write echoSdk ⟨0⟩ [18] 1 [0, 0] 2 32 = .error e) ↔
      (1 : Int) ≠ 2) ∧
    spi_master_block_write echoSdk ⟨0⟩ [18] 1 [0] 1 32 =
      .ok { ret := (echoSdk 0 [18] [0] (1 : Int).toNat).1,
            rx_buffer := (echoSdk 0 [18] [0] (1 : Int).toNat).2,
            calls := [.spi_write_read_blocking 0 [18] (1 : Int).toNat] } :=
  ⟨rfl, rfl, rfl,
   (spi_master_block_write_length_check echoSdk ⟨0⟩ [18] 1 [0, 0] 2 32
     (by decide) (by decide)).1,
   (spi_master_block_write_length_check echoSdk ⟨0⟩ [18] 1 [0] 1 32
     (by decide) (by decide)).2.1 rfl⟩

end SpiApi
